import Mathlib

/-!
Verification of the job-dispatch dashboard's core logic.

The TypeScript source is shallowly embedded:

* JavaScript strings are modelled as `List Char` (`Str`); `null`/`undefined`
  values are modelled by `Option`.
* JavaScript numbers in the business logic (prices, costs, profit) are
  modelled as rationals `ℚ`; `parseFloat` of a form field is modelled by the
  parsed value `Option ℚ` (`none` when the parse yields `NaN`, i.e. the field
  is missing or non-numeric).
* `Date` values are modelled by `JSDate` (whole days since the Unix epoch
  plus milliseconds within the day, in a fixed-offset local time);
  calendar-aware operations (`setMonth`) act on a civil year/month/day
  representation `CivilDate` exactly as the ECMAScript `MakeDay` algorithm
  prescribes.
* Database writes are modelled as pure row merges: the hosted store applies
  the given columns to the row and returns the updated row; connectivity
  failures are outside the model.
-/

namespace JobDispatch

/-- JavaScript strings, modelled as lists of characters. -/
abbrev Str := List Char

/-- Embed a Lean string literal into the model. -/
def strOf (s : String) : Str := s.toList

/-- `phone.replace(/\D/g, '')`: keep only the ASCII decimal digits. -/
def digitsOf (s : Str) : Str := s.filter Char.isDigit

/-- `s.toLowerCase()` restricted to ASCII (all the data in scope is ASCII). -/
def lowerStr (s : Str) : Str := s.map Char.toLower

/-- `strLeads h n` is true when `n` is a leading segment of `h`. -/
def strLeads : Str → Str → Bool
  | _, [] => true
  | [], _ :: _ => false
  | c :: cs, d :: ds => c = d && strLeads cs ds

/-- `h.includes(n)`: `n` occurs contiguously inside `h`
(true for the empty needle, as in JavaScript). -/
def strHas : Str → Str → Bool
  | [], n => strLeads [] n
  | h@(_ :: t), n => strLeads h n || strHas t n

theorem strLeads_iff (h n : Str) : strLeads h n = true ↔ ∃ r, h = n ++ r := by
  induction n generalizing h with
  | nil => simp [strLeads]
  | cons d ds ih =>
    cases h with
    | nil => simp [strLeads]
    | cons c cs =>
      simp only [strLeads, Bool.and_eq_true, decide_eq_true_eq, ih, List.cons_append,
        List.cons.injEq]
      constructor
      · rintro ⟨rfl, r, rfl⟩; exact ⟨r, rfl, rfl⟩
      · rintro ⟨r, rfl, rfl⟩; exact ⟨rfl, r, rfl⟩

theorem strHas_iff (h n : Str) : strHas h n = true ↔ ∃ l r, h = l ++ n ++ r := by
  induction h with
  | nil =>
    simp only [strHas, strLeads_iff]
    constructor
    · rintro ⟨r, hr⟩; exact ⟨[], r, by simpa using hr⟩
    · rintro ⟨l, r, hr⟩
      rcases List.append_eq_nil.mp (List.append_eq_nil.mp hr.symm).1 with ⟨rfl, rfl⟩
      exact ⟨r, by simpa using hr⟩
  | cons c cs ih =>
    simp only [strHas, Bool.or_eq_true, strLeads_iff, ih]
    constructor
    · rintro (⟨r, hr⟩ | ⟨l, r, hr⟩)
      · exact ⟨[], r, by simpa using hr⟩
      · exact ⟨c :: l, r, by simp [hr]⟩
    · rintro ⟨l, r, hr⟩
      cases l with
      | nil => exact Or.inl ⟨r, by simpa using hr⟩
      | cons x xs =>
        simp only [List.cons_append, List.cons.injEq] at hr
        exact Or.inr ⟨xs, r, hr.2⟩

/-! ## Whitespace collapsing and percent-encoding (jobUtils) -/

/-- JavaScript regular-expression whitespace `\s`, ASCII fragment
(the data in scope contains no Unicode spaces). -/
def isJsWs (c : Char) : Bool :=
  c = ' ' || c = '\t' || c = '\n' || c = '\r' || c = '\x0b' || c = '\x0c'

/-- `message.replace(/\s+/g, ' ')`: each maximal whitespace run becomes one
space. -/
def squashWs : Str → Str
  | [] => []
  | [c] => if isJsWs c then [' '] else [c]
  | c :: d :: rest =>
    if isJsWs c && isJsWs d then squashWs (d :: rest)
    else (if isJsWs c then ' ' else c) :: squashWs (d :: rest)

/-- `.trim()` after the squash: only plain spaces can remain at the ends. -/
def trimSpaces (s : Str) : Str :=
  ((s.dropWhile (· = ' ')).reverse.dropWhile (· = ' ')).reverse

/-- `message.replace(/\s+/g, ' ').trim()` from `createWhatsAppLink`. -/
def collapseWs (s : Str) : Str := trimSpaces (squashWs s)

/-- Hexadecimal digit used by percent-encoding (uppercase, as produced by
`encodeURIComponent`). -/
def hexDigit (n : ℕ) : Char :=
  if n < 10 then Char.ofNat (48 + n) else Char.ofNat (55 + n)

/-- UTF-8 bytes of a code point, as `encodeURIComponent` escapes them. -/
def utf8Bytes (c : Char) : List ℕ :=
  let n := c.toNat
  if n < 128 then [n]
  else if n < 2048 then [192 + n / 64, 128 + n % 64]
  else if n < 65536 then [224 + n / 4096, 128 + n / 64 % 64, 128 + n % 64]
  else [240 + n / 262144, 128 + n / 4096 % 64, 128 + n / 64 % 64, 128 + n % 64]

/-- Characters `encodeURIComponent` leaves unescaped. -/
def isUriUnreserved (c : Char) : Bool :=
  c.isAlpha || c.isDigit || c = '-' || c = '_' || c = '.' || c = '!' ||
    c = '~' || c = '*' || c = '\x27' || c = '(' || c = ')'

/-- `encodeURIComponent(s)`. -/
def encodeURIComponent (s : Str) : Str :=
  s.flatMap fun c =>
    if isUriUnreserved c then [c]
    else (utf8Bytes c).flatMap fun b => ['%', hexDigit (b / 16), hexDigit (b % 16)]

/-! ## Data model (src/types/index.ts) -/

/-- The `status` union of the `Job` interface. -/
inductive JobStatus
  | pending
  | assigned
  | inProgress
  | completed
  | cancelled
deriving DecidableEq

/-- The status string stored in the database. -/
def JobStatus.str : JobStatus → Str
  | .pending => strOf "pending"
  | .assigned => strOf "assigned"
  | .inProgress => strOf "in_progress"
  | .completed => strOf "completed"
  | .cancelled => strOf "cancelled"

/-- The `Job` row. Nullable columns are `Option`; numeric columns are `ℚ`. -/
structure Job where
  id : Str
  job_id : Str
  customer_name : Str
  customer_phone : Str
  customer_address : Str
  customer_issue : Str
  subcontractor_id : Option Str
  status : JobStatus
  materials : Option Str
  price : Option ℚ
  parts_cost : Option ℚ
  job_profit : Option ℚ
  notes : Option Str
  receipt_url : Option Str
  created_at : Str
  updated_at : Str
  region : Option Str
deriving DecidableEq

/-- The `CreateJobData` interface (no status field: callers cannot choose a
status at creation). -/
structure CreateJobData where
  customer_name : Str
  customer_phone : Str
  customer_address : Str
  customer_issue : Str
  subcontractor_id : Option Str := none
  region : Option Str := none

/-- The `UpdateJobData` patch: an absent outer `Option` means the column is
not part of the patch; the inner `Option` (where present) is SQL `null`. -/
structure UpdateJobData where
  status : Option JobStatus := none
  subcontractor_id : Option (Option Str) := none
  materials : Option Str := none
  price : Option (Option ℚ) := none
  parts_cost : Option (Option ℚ) := none
  job_profit : Option (Option ℚ) := none
  notes : Option (Option Str) := none
  receipt_url : Option Str := none

/-- Errors thrown by the embedded functions. -/
inductive JsError
  | requiredFields
  | invalidPhone (phone : Str)
  | invalidFormat (phone : Str)
deriving DecidableEq

/-! ## jobUtils (src/utils/jobUtils.ts) -/

/-- The alphabet of `generateJobId`. -/
def jobIdAlphabet : Str := strOf "ABCDEFGHIJKLMNOPQRSTUVWXYZ0123456789"

/-- `generateJobId`: `'Job-'` followed by six characters drawn from the
36-character alphabet. The six values of `Math.floor(Math.random() * 36)`
are passed in as `r`; `charAt` is total, so an (unreachable) out-of-range
index defaults like `charAt`'s empty result would never arise here. -/
def generateJobId (r : Fin 6 → Fin 36) : Str :=
  strOf "Job-" ++ List.ofFn fun i : Fin 6 => jobIdAlphabet.getD (r i).val 'A'

/-- `canCompleteJob(job)`: `job.receipt_url !== null && job.receipt_url !== ''`. -/
def canCompleteJob (j : Job) : Bool :=
  decide (j.receipt_url ≠ none) && decide (j.receipt_url ≠ some [])

/-- The normalization step of `createWhatsAppLink` applied to the cleaned
(digits-only) phone: 10 digits gain a leading `1`; 11 digits keep or replace
the leading digit; anything else passes through. -/
def whatsappNormalize (cleanPhone : Str) : Str :=
  if cleanPhone.length = 10 then '1' :: cleanPhone
  else if cleanPhone.length = 11 then
    if cleanPhone.head? = some '1' then cleanPhone
    else '1' :: cleanPhone.drop 1
  else cleanPhone

/-- `createWhatsAppLink(phone, message)`: digits-only cleaning, US
normalization, validation, whitespace collapse, percent-encoding, and the
`https://wa.me/<phone>?text=<message>` link. -/
def createWhatsAppLink (phone message : Str) : Except JsError Str :=
  let whatsappPhone := whatsappNormalize (digitsOf phone)
  if whatsappPhone.length ≠ 11 ∨ whatsappPhone.head? ≠ some '1' then
    .error (.invalidFormat phone)
  else
    .ok (strOf "https://wa.me/" ++ whatsappPhone ++ strOf "?text=" ++
      encodeURIComponent (collapseWs message))

/-- The record returned by `validateAndCleanPhone`. -/
structure PhoneValidation where
  isValid : Bool
  cleaned : Str
  formatted : Str
  whatsappReady : Str
deriving DecidableEq

/-- `validateAndCleanPhone(phone)`: only 10-digit numbers and 11-digit
numbers that already start with `1` are valid. -/
def validateAndCleanPhone (phone : Str) : PhoneValidation :=
  let cleaned := digitsOf phone
  if cleaned.length = 10 then
    { isValid := true
      cleaned := cleaned
      formatted := '(' :: cleaned.take 3 ++ strOf ") " ++
        (cleaned.drop 3).take 3 ++ '-' :: cleaned.drop 6
      whatsappReady := '1' :: cleaned }
  else if cleaned.length = 11 ∧ cleaned.head? = some '1' then
    { isValid := true
      cleaned := cleaned
      formatted := strOf "+1 (" ++ (cleaned.drop 1).take 3 ++ strOf ") " ++
        (cleaned.drop 4).take 3 ++ '-' :: cleaned.drop 7
      whatsappReady := cleaned }
  else
    { isValid := false, cleaned := cleaned, formatted := phone, whatsappReady := [] }

/-- `sendWhatsAppMessage(phone, message)`, up to the window side effects:
empty inputs and invalid phones are rejected before the link is built; the
link that the device handlers then open is returned on success. -/
def sendWhatsAppMessage (phone message : Str) : Except JsError Str :=
  if phone = [] ∨ message = [] then .error .requiredFields
  else if (validateAndCleanPhone phone).isValid = false then
    .error (.invalidPhone phone)
  else createWhatsAppLink phone message

/-! ## Profit derivation (src/pages/PublicJobView.tsx) -/

/-- `parseFloat(x) || 0`: a `NaN` parse (missing or non-numeric field) and a
zero parse both yield `0`. -/
def jsOrZero : Option ℚ → ℚ
  | none => 0
  | some q => q

/-- `x.toFixed(2)` as a value: round to the nearest cent, ties away from
zero for the nonnegative inputs that reach it. -/
def toFixed2 (q : ℚ) : ℚ := ⌊q * 100 + 1 / 2⌋ / 100

/-- `calculateJobProfit(salePrice, partsCost)`: nonnegative difference
rendered to two decimals, `'0.00'` otherwise. Inputs are the parsed values
of the two form fields. -/
def calculateJobProfit (salePrice partsCost : Option ℚ) : ℚ :=
  let sale := jsOrZero salePrice
  let parts := jsOrZero partsCost
  let profit := sale - parts
  if profit ≥ 0 then toFixed2 profit else 0

/-- The sale-price / parts-cost / profit slice of the `formData` state. -/
structure ProfitForm where
  price : Option ℚ
  parts_cost : Option ℚ
  job_profit : ℚ

/-- The `onChange` handler of the Sale Price input. -/
def setPrice (f : ProfitForm) (v : Option ℚ) : ProfitForm := { f with price := v }

/-- The `onChange` handler of the Parts Cost input. -/
def setPartsCost (f : ProfitForm) (v : Option ℚ) : ProfitForm :=
  { f with parts_cost := v }

/-- The `useEffect` that recomputes `job_profit` from the current
`price`/`parts_cost` after every change to either. -/
def applyProfitEffect (f : ProfitForm) : ProfitForm :=
  { f with job_profit := calculateJobProfit f.price f.parts_cost }

/-! ## Job update (src/api/jobs.ts, PublicJobView/JobView save paths) -/

/-- The database `update` merge: the patch columns overwrite the row, and
`updated_at` is refreshed; no column is validated. -/
def applyPatch (j : Job) (u : UpdateJobData) (now : Str) : Job :=
  { j with
    status := u.status.getD j.status
    subcontractor_id := u.subcontractor_id.getD j.subcontractor_id
    materials := (u.materials.map some).getD j.materials
    price := u.price.getD j.price
    parts_cost := u.parts_cost.getD j.parts_cost
    job_profit := u.job_profit.getD j.job_profit
    notes := u.notes.getD j.notes
    receipt_url := (u.receipt_url.map some).getD j.receipt_url
    updated_at := now }

/-- `updateJobById(jobId, updates)` acting on the row it matched: the merged
row is written and returned. The only failure in the source is a database
error, which is outside the model; no business validation is performed. -/
def updateJobById (j : Job) (u : UpdateJobData) (now : Str) : Except JsError Job :=
  .ok (applyPatch j u now)

/-! ## Audit records of the admin save (src/pages/JobView.tsx) -/

/-- A JavaScript number rendered by `toString()`. The jobs in scope hold
prices with at most a few decimals, so a plain decimal rendering (integer
part, then up to 17 significant fractional digits, trailing zeros dropped)
agrees with the source. -/
def jsNumToStr (q : ℚ) : Str :=
  let sign : Str := if q < 0 then ['-'] else []
  let n : ℕ := q.num.natAbs
  let d : ℕ := q.den
  let intPart : Str := strOf (Nat.repr (n / d))
  let fracDigits : Str :=
    (List.range 17).foldl
      (fun (acc : Str × ℕ) _ =>
        let r := acc.2 * 10
        (acc.1 ++ strOf (Nat.repr (r / d)), r % d))
      (([] : Str), n % d) |>.1
  let fracTrimmed : Str := (fracDigits.reverse.dropWhile (· = '0')).reverse
  if fracTrimmed = [] then sign ++ intPart
  else sign ++ intPart ++ '.' :: fracTrimmed

/-- The `formData` state of the admin job view. -/
structure JobForm where
  status : JobStatus
  materials : Str
  price : Str
  parts_cost : Str
  job_profit : Str
  notes : Str

/-- How `JobView` fills the form from a fetched job
(`data.materials || ''`, `data.price?.toString() || ''`, ...). -/
def formOfJob (j : Job) : JobForm :=
  { status := j.status
    materials := j.materials.getD []
    price := (j.price.map jsNumToStr).getD []
    parts_cost := (j.parts_cost.map jsNumToStr).getD []
    job_profit := (j.job_profit.map jsNumToStr).getD []
    notes := j.notes.getD [] }

/-- The `fieldsToCheck` list of `handleSave`: field name, old value
(`undefined`/`null` kept as `none`, numbers rendered by `toString()`), and
new value from the form. -/
def fieldsToCheck (j : Job) (f : JobForm) (sel : Option Str) :
    List (Str × Option Str × Option Str) :=
  [ (strOf "status", some j.status.str, some f.status.str),
    (strOf "materials", j.materials, some f.materials),
    (strOf "price", j.price.map jsNumToStr, some f.price),
    (strOf "parts_cost", j.parts_cost.map jsNumToStr, some f.parts_cost),
    (strOf "job_profit", j.job_profit.map jsNumToStr, some f.job_profit),
    (strOf "notes", j.notes, some f.notes),
    (strOf "subcontractor_id", j.subcontractor_id, sel) ]

/-- An appended `job_updates` row (`createUpdate`), with the
`field.oldValue || ''` / `field.newValue || ''` coercions of the call. -/
structure UpdateRecord where
  field_name : Str
  old_value : Str
  new_value : Str
deriving DecidableEq

/-- The audit records produced by one `handleSave`: one `createUpdate` call
per field whose old and new values differ under strict (`!==`) comparison. -/
def auditRecords (j : Job) (f : JobForm) (sel : Option Str) : List UpdateRecord :=
  ((fieldsToCheck j f sel).filter fun fld => fld.2.1 ≠ fld.2.2).map fun fld =>
    { field_name := fld.1, old_value := fld.2.1.getD [], new_value := fld.2.2.getD [] }

/-- A save that re-submits exactly what the form was filled with. -/
def noopAudit (j : Job) : List UpdateRecord :=
  auditRecords j (formOfJob j) j.subcontractor_id

/-! ## Job creation (src/hooks/useJobs.ts) -/

/-- `createJob(jobData)`: required-field validation, generated id, forced
`pending` status, null optional columns. The store-assigned `id` and
`created_at` and the six random draws are passed in; the inserted row is
returned. -/
def createJob (d : CreateJobData) (r : Fin 6 → Fin 36) (rowId now : Str) :
    Except JsError Job :=
  if d.customer_name = [] ∨ d.customer_phone = [] ∨ d.customer_address = [] ∨
      d.customer_issue = [] then
    .error .requiredFields
  else
    .ok
      { id := rowId
        job_id := generateJobId r
        customer_name := d.customer_name
        customer_phone := d.customer_phone
        customer_address := d.customer_address
        customer_issue := d.customer_issue
        subcontractor_id := d.subcontractor_id
        status := .pending
        materials := none
        price := none
        parts_cost := none
        job_profit := none
        notes := none
        receipt_url := none
        created_at := now
        updated_at := now
        region := d.region }

/-! ## Dashboard aggregation (src/pages/Dashboard.tsx)

Dates are in the fixed-offset local time of the dashboard (daylight-saving
shifts do not affect the day arithmetic in scope, since `setDate` steps in
calendar days exactly as the model does). -/

/-- A `Date` instant: whole days since the Unix epoch and milliseconds
within the day (`0 ≤ ms < 86400000` in every state the code builds). -/
structure JSDate where
  days : ℤ
  ms : ℤ
deriving DecidableEq

/-- The time value, used by `<=` / `>=` on `Date` objects. -/
def JSDate.toMs (d : JSDate) : ℤ := d.days * 86400000 + d.ms

/-- `date.getDay()`: 0 = Sunday … 6 = Saturday (1970-01-01 was a Thursday). -/
def getDay (d : JSDate) : ℤ := (d.days + 4) % 7

/-- `getWeekBoundaries(date)`: Tuesday-to-Monday business week. `setDate`
subtraction is calendar-day stepping; `setHours(0,0,0,0)` and
`setHours(23,59,59,999)` pin the times of day. -/
def getWeekBoundaries (d : JSDate) : JSDate × JSDate :=
  let dayOfWeek := getDay d
  let daysToTuesday :=
    if dayOfWeek = 0 then 5
    else if dayOfWeek = 1 then 6
    else dayOfWeek - 2
  let weekStart : JSDate := ⟨d.days - daysToTuesday, 0⟩
  let weekEnd : JSDate := ⟨d.days - daysToTuesday + 6, 86399999⟩
  (weekStart, weekEnd)

/-- A civil calendar reading of an instant: year, month (0-based, as
`getMonth()` returns it), day of month, and milliseconds within the day. -/
structure CivilDate where
  y : ℤ
  m : ℤ
  d : ℤ
  ms : ℤ

/-- Days since the epoch of a civil date (1-based month), the standard
civil-from-days inverse used by every proleptic-Gregorian implementation. -/
def daysFromCivil (y m d : ℤ) : ℤ :=
  let yy := if m ≤ 2 then y - 1 else y
  let era := yy / 400
  let yoe := yy - era * 400
  let mp := (m + 9) % 12
  let doy := (153 * mp + 2) / 5 + d - 1
  let doe := yoe * 365 + yoe / 4 - yoe / 100 + doy
  era * 146097 + doe - 719468

/-- ECMAScript `MakeDay(year, month, date)`: the month is normalized into
the year by floor division, and the day of month is added unchecked, so an
overflowing day rolls into the following month. -/
def jsMakeDay (year month day : ℤ) : ℤ :=
  daysFromCivil (year + month / 12) (month % 12 + 1) 1 + (day - 1)

/-- The instant of a civil reading. -/
def CivilDate.toJSDate (t : CivilDate) : JSDate := ⟨jsMakeDay t.y t.m t.d, t.ms⟩

/-- The `'month'` arm of the date filter: `monthAgo` is `today` with
`setMonth(getMonth() - 1)`, and a job matches when
`new Date(job.created_at) >= monthAgo`. -/
def matchesMonthFilter (today : CivilDate) (jobDate : JSDate) : Bool :=
  let monthAgo : JSDate := ⟨jsMakeDay today.y (today.m - 1) today.d, today.ms⟩
  decide (monthAgo.toMs ≤ jobDate.toMs)

/-- The instant exactly one calendar month before `t` (same day of month and
time of day, day overflow rolling forward), stated without the `MakeDay`
month normalization: the spec-level description of `setMonth(-1)`. -/
def monthAgoCalendar (t : CivilDate) : JSDate :=
  if t.m = 0 then ⟨jsMakeDay (t.y - 1) 11 t.d, t.ms⟩
  else ⟨jsMakeDay t.y (t.m - 1) t.d, t.ms⟩

/-- The date predicate claim C6 describes: created within the last 30 days
from now. -/
def withinLast30Days (today : CivilDate) (jobDate : JSDate) : Bool :=
  decide (today.toJSDate.toMs - 30 * 86400000 ≤ jobDate.toMs)

/-- The `matchesSearch` clause of `filteredJobs`: name, job id and address
are lowercased on both sides; the phone is matched raw and case-sensitively. -/
def matchesSearch (j : Job) (term : Str) : Bool :=
  strHas (lowerStr j.customer_name) (lowerStr term) ||
    strHas (lowerStr j.job_id) (lowerStr term) ||
    strHas j.customer_phone term ||
    strHas (lowerStr j.customer_address) (lowerStr term)

/-- The text search as claim C8 states it: a case-insensitive substring of
the customer name, the job id, the phone digits, or the address. -/
def searchPerClaim (j : Job) (term : Str) : Bool :=
  strHas (lowerStr j.customer_name) (lowerStr term) ||
    strHas (lowerStr j.job_id) (lowerStr term) ||
    strHas (lowerStr (digitsOf j.customer_phone)) (lowerStr term) ||
    strHas (lowerStr j.customer_address) (lowerStr term)

/-- The `disabled={!canComplete}` attribute of the `completed` option in the
public status select. -/
def completedOptionDisabled (j : Job) : Bool := !canCompleteJob j

/-! ## Claim theorems -/

/-- C2: for every sale price and parts cost, the profit computation returns
`max(0, salePrice - partsCost)` rounded to two decimal places, treats
missing or non-numeric inputs as 0, and is recomputed by the effect whenever
either input changes. -/
theorem claim_C2 (salePrice partsCost : Option ℚ) :
    calculateJobProfit salePrice partsCost =
      toFixed2 (max 0 (jsOrZero salePrice - jsOrZero partsCost)) ∧
    calculateJobProfit none partsCost = calculateJobProfit (some 0) partsCost ∧
    calculateJobProfit salePrice none = calculateJobProfit salePrice (some 0) ∧
    (∀ f v, (applyProfitEffect (setPrice f v)).job_profit =
      calculateJobProfit v f.parts_cost) ∧
    (∀ f v, (applyProfitEffect (setPartsCost f v)).job_profit =
      calculateJobProfit f.price v) := by
  refine ⟨?_, rfl, ?_, fun f v => rfl, fun f v => rfl⟩
  · unfold calculateJobProfit
    rcases le_or_lt 0 (jsOrZero salePrice - jsOrZero partsCost) with h | h
    · rw [if_pos (by exact h), max_eq_right h]
    · rw [if_neg (by exact not_le.mpr h), max_eq_left h.le]
      unfold toFixed2
      norm_num
  · cases salePrice <;> rfl

/-- C3: `canCompleteJob` returns true exactly when the receipt reference is
present (non-null) and non-empty. -/
theorem claim_C3 (j : Job) :
    canCompleteJob j = true ↔ ∃ s, j.receipt_url = some s ∧ s ≠ [] := by
  cases h : j.receipt_url with
  | none => simp [canCompleteJob, h]
  | some s => simp [canCompleteJob, h]

/-- C4: the deep-link builder normalizes the digits-only phone (10 digits
gain a leading `1`; 11 digits keep or replace the leading digit), fails with
the invalid-phone-format error exactly when the normalized result is not 11
digits starting with `1`, and otherwise emits the `wa.me` URI with the
whitespace-collapsed, percent-encoded message. -/
theorem claim_C4 (phone message : Str) :
    ((digitsOf phone).length = 10 →
      whatsappNormalize (digitsOf phone) = '1' :: digitsOf phone) ∧
    ((digitsOf phone).length = 11 → (digitsOf phone).head? = some '1' →
      whatsappNormalize (digitsOf phone) = digitsOf phone) ∧
    ((digitsOf phone).length = 11 → (digitsOf phone).head? ≠ some '1' →
      whatsappNormalize (digitsOf phone) = '1' :: (digitsOf phone).drop 1) ∧
    (createWhatsAppLink phone message = .error (.invalidFormat phone) ↔
      ¬((whatsappNormalize (digitsOf phone)).length = 11 ∧
        (whatsappNormalize (digitsOf phone)).head? = some '1')) ∧
    ((whatsappNormalize (digitsOf phone)).length = 11 →
      (whatsappNormalize (digitsOf phone)).head? = some '1' →
      createWhatsAppLink phone message =
        .ok (strOf "https://wa.me/" ++ whatsappNormalize (digitsOf phone) ++
          strOf "?text=" ++ encodeURIComponent (collapseWs message))) := by
  refine ⟨?_, ?_, ?_, ?_, ?_⟩
  · intro h10
    unfold whatsappNormalize
    rw [if_pos h10]
  · intro h11 hlead
    unfold whatsappNormalize
    rw [if_neg (by omega), if_pos h11, if_pos hlead]
  · intro h11 hlead
    unfold whatsappNormalize
    rw [if_neg (by omega), if_pos h11, if_neg hlead]
  · unfold createWhatsAppLink
    by_cases hc : (whatsappNormalize (digitsOf phone)).length ≠ 11 ∨
        (whatsappNormalize (digitsOf phone)).head? ≠ some '1'
    · simp only [if_pos hc]
      constructor
      · intro _; tauto
      · intro _; trivial
    · simp only [if_neg hc]
      constructor
      · intro h; exact absurd h (by simp)
      · intro h; exact absurd (by tauto) hc
  · intro h11 hlead
    unfold createWhatsAppLink
    rw [if_neg (by push_neg; exact ⟨h11, hlead⟩)]

/-- Witness for C4: a formatted 10-digit phone normalizes by prefixing `1`,
and the 3-digit input `"123"` raises the invalid-format error. -/
theorem claim_C4_witness :
    whatsappNormalize (digitsOf (strOf "(555) 123-4567")) =
      '1' :: digitsOf (strOf "(555) 123-4567") ∧
    createWhatsAppLink (strOf "123") (strOf "hi") =
      .error (.invalidFormat (strOf "123")) := by
  refine ⟨(claim_C4 (strOf "(555) 123-4567") (strOf "hi")).1 (by decide), ?_⟩
  exact ((claim_C4 (strOf "123") (strOf "hi")).2.2.2.1).mpr (by decide)

/-- C5: the business-week boundary computation subtracts 5 days on a Sunday,
6 on a Monday and `weekday - 2` otherwise; the week start is at midnight,
and the week end is six days later at 23:59:59.999. On a Wednesday the week
start is the preceding Tuesday. -/
theorem claim_C5 (d : JSDate) :
    ((getWeekBoundaries d).1.ms = 0 ∧
      (getWeekBoundaries d).2.days = (getWeekBoundaries d).1.days + 6 ∧
      (getWeekBoundaries d).2.ms = 86399999) ∧
    (getDay d = 0 → d.days - (getWeekBoundaries d).1.days = 5) ∧
    (getDay d = 1 → d.days - (getWeekBoundaries d).1.days = 6) ∧
    (2 ≤ getDay d → d.days - (getWeekBoundaries d).1.days = getDay d - 2) ∧
    (getDay d = 3 →
      (getWeekBoundaries d).1.days = d.days - 1 ∧
        getDay (getWeekBoundaries d).1 = 2) := by
  have hws : (getWeekBoundaries d).1 =
      ⟨d.days - (if getDay d = 0 then 5 else if getDay d = 1 then 6 else
        getDay d - 2), 0⟩ := rfl
  have hwe : (getWeekBoundaries d).2 =
      ⟨d.days - (if getDay d = 0 then 5 else if getDay d = 1 then 6 else
        getDay d - 2) + 6, 86399999⟩ := rfl
  rw [hws, hwe]
  dsimp only
  refine ⟨⟨rfl, rfl, rfl⟩, ?_, ?_, ?_, ?_⟩
  · intro h0; rw [if_pos h0]; omega
  · intro h1; rw [if_neg (by omega), if_pos h1]; omega
  · intro h2; rw [if_neg (by omega), if_neg (by omega)]; omega
  · intro h3
    rw [if_neg (by omega), if_neg (by omega)]
    refine ⟨by omega, ?_⟩
    simp only [getDay] at h3 ⊢
    rw [h3]
    omega

/-- Witness for C5: day 6 of the epoch (1970-01-07) is a Wednesday; its week
starts on day 5 (the preceding Tuesday) at midnight. -/
theorem claim_C5_witness :
    getDay ⟨6, 43200000⟩ = 3 ∧
    (getWeekBoundaries ⟨6, 43200000⟩).1.days = 5 ∧
    (getWeekBoundaries ⟨6, 43200000⟩).1.ms = 0 ∧
    getDay (getWeekBoundaries ⟨6, 43200000⟩).1 = 2 := by
  have h := claim_C5 ⟨6, 43200000⟩
  have h3 := h.2.2.2.2 (by decide)
  exact ⟨by decide, by rw [h3.1]; decide, h.1.1, h3.2⟩

/-- C9: every job returned by `createJob` has status `pending`, and its
`job_id` is `"Job-"` followed by exactly six characters drawn from the
uppercase letters and digits. -/
theorem claim_C9 (d : CreateJobData) (r : Fin 6 → Fin 36) (rowId now : Str)
    (j : Job) (h : createJob d r rowId now = .ok j) :
    j.status = .pending ∧
    ∃ suffix, j.job_id = strOf "Job-" ++ suffix ∧ suffix.length = 6 ∧
      ∀ c ∈ suffix, c.isUpper ∨ c.isDigit := by
  unfold createJob at h
  split at h
  · exact absurd h (by simp)
  · rw [Except.ok.injEq] at h
    subst h
    refine ⟨rfl, List.ofFn fun i : Fin 6 => jobIdAlphabet.getD (r i).val 'A',
      rfl, by simp, ?_⟩
    intro c hc
    rw [List.mem_ofFn] at hc
    obtain ⟨i, rfl⟩ := hc
    have halpha : ∀ k : Fin 36, (jobIdAlphabet.getD k.val 'A').isUpper ∨
        (jobIdAlphabet.getD k.val 'A').isDigit := by decide
    exact halpha (r i)

/-- The concrete creation request used to witness C9. -/
def sampleJobData : CreateJobData :=
  { customer_name := strOf "John Smith"
    customer_phone := strOf "5551234567"
    customer_address := strOf "123 Main St"
    customer_issue := strOf "Kitchen sink is leaking" }

/-- Concrete values for the six random draws of `generateJobId`. -/
def sampleDraws : Fin 6 → Fin 36 := fun i => ⟨i.val * 7, by omega⟩

/-- The row `createJob` inserts and returns for the witness request. -/
def sampleCreatedJob : Job :=
  { id := strOf "r1"
    job_id := generateJobId sampleDraws
    customer_name := sampleJobData.customer_name
    customer_phone := sampleJobData.customer_phone
    customer_address := sampleJobData.customer_address
    customer_issue := sampleJobData.customer_issue
    subcontractor_id := none
    status := .pending
    materials := none
    price := none
    parts_cost := none
    job_profit := none
    notes := none
    receipt_url := none
    created_at := strOf "t0"
    updated_at := strOf "t0"
    region := none }

/-- Witness for C9 at a concrete creation request. -/
theorem claim_C9_witness :
    sampleCreatedJob.status = .pending ∧
    ∃ suffix, sampleCreatedJob.job_id = strOf "Job-" ++ suffix ∧
      suffix.length = 6 ∧ ∀ c ∈ suffix, c.isUpper ∨ c.isDigit :=
  claim_C9 sampleJobData sampleDraws (strOf "r1") (strOf "t0")
    sampleCreatedJob rfl

/-- C10: an 11-digit phone not starting with `1` is reported invalid by
`validateAndCleanPhone`, so `sendWhatsAppMessage` rejects it, even though
`createWhatsAppLink` accepts the same number by replacing its leading digit
with `1`. -/
theorem claim_C10 (phone message : Str)
    (h11 : (digitsOf phone).length = 11)
    (hlead : (digitsOf phone).head? ≠ some '1')
    (hm : message ≠ []) :
    (validateAndCleanPhone phone).isValid = false ∧
    sendWhatsAppMessage phone message = .error (.invalidPhone phone) ∧
    createWhatsAppLink phone message =
      .ok (strOf "https://wa.me/" ++ '1' :: (digitsOf phone).drop 1 ++
        strOf "?text=" ++ encodeURIComponent (collapseWs message)) := by
  have hphone : phone ≠ [] := by
    intro he
    rw [he] at h11
    simp [digitsOf] at h11
  have hvalid : (validateAndCleanPhone phone).isValid = false := by
    unfold validateAndCleanPhone
    rw [if_neg (by omega), if_neg (by rintro ⟨-, hl⟩; exact hlead hl)]
  have hnorm : whatsappNormalize (digitsOf phone) = '1' :: (digitsOf phone).drop 1 := by
    unfold whatsappNormalize
    rw [if_neg (by omega), if_pos h11, if_neg hlead]
  refine ⟨hvalid, ?_, ?_⟩
  · unfold sendWhatsAppMessage
    rw [if_neg (by rintro (h | h); exacts [hphone h, hm h]), if_pos hvalid]
  · simp only [createWhatsAppLink, hnorm]
    have hcond : ¬(('1' :: (digitsOf phone).drop 1).length ≠ 11 ∨
        ('1' :: (digitsOf phone).drop 1).head? ≠ some '1') := by
      push_neg
      refine ⟨?_, rfl⟩
      simp only [List.length_cons, List.length_drop]
      omega
    rw [if_neg hcond]

/-- Witness for C10 at the spec's example number 25551234567. -/
theorem claim_C10_witness :
    (validateAndCleanPhone (strOf "25551234567")).isValid = false ∧
    sendWhatsAppMessage (strOf "25551234567") (strOf "hi") =
      .error (.invalidPhone (strOf "25551234567")) ∧
    createWhatsAppLink (strOf "25551234567") (strOf "hi") =
      .ok (strOf "https://wa.me/" ++
        '1' :: (digitsOf (strOf "25551234567")).drop 1 ++
        strOf "?text=" ++ encodeURIComponent (collapseWs (strOf "hi"))) :=
  claim_C10 (strOf "25551234567") (strOf "hi") (by decide) (by decide) (by decide)

/-- An assigned job whose receipt reference is null. -/
def gateJob : Job :=
  { id := strOf "u1"
    job_id := strOf "Job-TEST01"
    customer_name := strOf "Ann Lee"
    customer_phone := strOf "5551234567"
    customer_address := strOf "2 Oak Ave"
    customer_issue := strOf "no heat"
    subcontractor_id := none
    status := .assigned
    materials := none
    price := none
    parts_cost := none
    job_profit := none
    notes := none
    receipt_url := none
    created_at := strOf "2026-01-01"
    updated_at := strOf "2026-01-01"
    region := none }

/-- Counterexample to C1: on a job whose receipt reference is null, the
update operation accepts `status = completed` — it succeeds and changes the
job, instead of failing with a validation error and leaving it unchanged. -/
theorem claim_C1_cex :
    canCompleteJob gateJob = false ∧
    updateJobById gateJob { status := some .completed } (strOf "2026-01-02") =
      .ok (applyPatch gateJob { status := some .completed } (strOf "2026-01-02")) ∧
    (applyPatch gateJob { status := some .completed } (strOf "2026-01-02")).status =
      .completed ∧
    applyPatch gateJob { status := some .completed } (strOf "2026-01-02") ≠ gateJob :=
  ⟨by decide, rfl, rfl, by decide⟩

/-- C1 amended: the receipt gate exists only in the UI — the `completed`
option is disabled exactly when `canCompleteJob` is false — while the update
operation itself performs no validation: patching any such job to
`completed` succeeds and sets the status, leaving the receipt null/empty. -/
theorem claim_C1 (j : Job) (now : Str) (h : canCompleteJob j = false) :
    completedOptionDisabled j = true ∧
    ∃ j2, updateJobById j { status := some .completed } now = .ok j2 ∧
      j2.status = .completed ∧ j2.receipt_url = j.receipt_url := by
  refine ⟨by simp [completedOptionDisabled, h], applyPatch j _ now, rfl, rfl, rfl⟩

/-- Witness for the amended C1 at the null-receipt job. -/
theorem claim_C1_witness :
    completedOptionDisabled gateJob = true ∧
    ∃ j2, updateJobById gateJob { status := some .completed } (strOf "t1") = .ok j2 ∧
      j2.status = .completed ∧ j2.receipt_url = gateJob.receipt_url :=
  claim_C1 gateJob (strOf "t1") (by decide)

/-- January 31, 2024 at noon: the dashboard's reference time for the C6
counterexample (`getMonth()` is 0-based, so January is month 0). -/
def cexToday : CivilDate := ⟨2024, 0, 31, 43200000⟩

/-- December 31, 2023 at noon, 31 days before `cexToday`. -/
def cexJobDate : JSDate := ⟨daysFromCivil 2023 12 31, 43200000⟩

/-- Counterexample to C6: a job created 31 days ago matches the 'month'
filter even though it is not within the last 30 days. -/
theorem claim_C6_cex :
    matchesMonthFilter cexToday cexJobDate = true ∧
    withinLast30Days cexToday cexJobDate = false ∧
    cexToday.toJSDate.toMs - cexJobDate.toMs = 31 * 86400000 := by decide

/-- C6 amended: the 'month' filter matches a job exactly when its creation
timestamp is on or after the instant one calendar month before now — the
same day of month and time of day in the previous calendar month, with
`setMonth` overflow rolling into the following month — an interval of 28 to
31 days, not of 30 days. -/
theorem claim_C6 (t : CivilDate) (jobDate : JSDate)
    (h0 : 0 ≤ t.m) (h12 : t.m < 12) :
    matchesMonthFilter t jobDate = true ↔
      (monthAgoCalendar t).toMs ≤ jobDate.toMs := by
  obtain ⟨y, m, d, ms⟩ := t
  simp only [matchesMonthFilter, monthAgoCalendar, jsMakeDay, daysFromCivil,
    JSDate.toMs, decide_eq_true_eq] at *
  split_ifs at * <;> dsimp only at * <;> omega

/-- Witness for the amended C6 on October 11, 2026. -/
theorem claim_C6_witness :
    matchesMonthFilter ⟨2026, 9, 11, 0⟩ ⟨daysFromCivil 2026 9 20, 0⟩ = true ↔
      (monthAgoCalendar ⟨2026, 9, 11, 0⟩).toMs ≤
        (⟨daysFromCivil 2026 9 20, 0⟩ : JSDate).toMs :=
  claim_C6 ⟨2026, 9, 11, 0⟩ ⟨daysFromCivil 2026 9 20, 0⟩ (by decide) (by decide)

/-- A freshly created job: every optional money/text column is null. -/
def freshJob : Job :=
  { id := strOf "u2"
    job_id := strOf "Job-NEW001"
    customer_name := strOf "Bob Cole"
    customer_phone := strOf "5559876543"
    customer_address := strOf "9 Elm Rd"
    customer_issue := strOf "clogged drain"
    subcontractor_id := none
    status := .pending
    materials := none
    price := none
    parts_cost := none
    job_profit := none
    notes := none
    receipt_url := none
    created_at := strOf "2026-02-01"
    updated_at := strOf "2026-02-01"
    region := none }

/-- Counterexample to C7: saving a job's own current values produces five
audit records, not zero — each null column is logged because `null` differs
from the form's empty string under the strict comparison. -/
theorem claim_C7_cex :
    noopAudit freshJob ≠ [] ∧ (noopAudit freshJob).length = 5 := by decide

/-- C7 amended: one audit record is produced per field whose old value
(nulls kept as null, numbers rendered by `toString()`) differs from the new
form value under strict comparison; a save of the job's own current values
therefore produces zero records exactly when the five nullable form-backed
columns are all non-null, and one record per null column otherwise. -/
theorem claim_C7 (j : Job) :
    (noopAudit j = [] ↔
      j.materials ≠ none ∧ j.price ≠ none ∧ j.parts_cost ≠ none ∧
        j.job_profit ≠ none ∧ j.notes ≠ none) ∧
    (∀ f sel, (auditRecords j f sel).length =
      ((fieldsToCheck j f sel).filter fun fld =>
        decide (fld.2.1 ≠ fld.2.2)).length) := by
  constructor
  · cases hm : j.materials <;> cases hp : j.price <;> cases hc : j.parts_cost <;>
      cases hj : j.job_profit <;> cases hn : j.notes <;>
      simp [noopAudit, auditRecords, fieldsToCheck, formOfJob, hm, hp, hc, hj, hn]
  · intro f sel
    simp [auditRecords]

/-- A job whose phone is stored formatted, used against C8. -/
def searchJob : Job :=
  { id := strOf "u3"
    job_id := strOf "Job-ABC123"
    customer_name := strOf "John Smith"
    customer_phone := strOf "(555) 123-4567"
    customer_address := strOf "123 Main St"
    customer_issue := strOf "leaking sink"
    subcontractor_id := none
    status := .pending
    materials := none
    price := none
    parts_cost := none
    job_profit := none
    notes := none
    receipt_url := none
    created_at := strOf "2026-02-01"
    updated_at := strOf "2026-02-01"
    region := none }

/-- Counterexample to C8: searching the digits `5551234567` misses a job
whose phone is stored as `(555) 123-4567`, although the term is a substring
of the phone digits as the claim requires. -/
theorem claim_C8_cex :
    matchesSearch searchJob (strOf "5551234567") = false ∧
    searchPerClaim searchJob (strOf "5551234567") = true := by decide

/-- C8 amended: the text search matches exactly when the term is a
case-insensitive substring of the customer name, the job id, or the
address, or a case-sensitive substring of the phone string as stored (not
of its digits). -/
theorem claim_C8 (j : Job) (term : Str) :
    matchesSearch j term = true ↔
      ((∃ l r, lowerStr j.customer_name = l ++ lowerStr term ++ r) ∨
        (∃ l r, lowerStr j.job_id = l ++ lowerStr term ++ r) ∨
        (∃ l r, j.customer_phone = l ++ term ++ r) ∨
        (∃ l r, lowerStr j.customer_address = l ++ lowerStr term ++ r)) := by
  simp only [matchesSearch, Bool.or_eq_true, strHas_iff, List.append_assoc,
    or_assoc]

end JobDispatch
